import Mathlib

/-!
Verification of the SynapseScanner research-aggregation core.

This file gives a shallow embedding, in Lean 4, of the algorithmic core of
the repository: the `Paper` data model and its serialization pair
(`src/synapsescanner/sources/__init__.py`), the shared keyword-extraction
helper (`BaseSource._extract_keywords`), the connection engine
(`src/synapsescanner/crossref.py`), the SQLite cache read path
(`src/synapsescanner/cache.py`), the four source adapters' pure
parsing/collection logic (`sources/arxiv.py`, `sources/semantic_scholar.py`,
`sources/pubmed.py`, `sources/biorxiv.py`), and the bounded recursive
reference traversal (`universal_scanner.py`, `fetch_references_recursive`).

Conventions of the embedding:
* Python `str` is Lean `String`; Python `int` is Lean `Int` (or `Nat` where
  the value is a length/count that is non-negative by construction).
* Python sets built by comprehension (`{x.lower() for x in xs}`) are modelled
  as duplicate-free lists; `list(set(xs))` has unspecified iteration order in
  Python, and is modelled as first-occurrence deduplication — every property
  proved about it is order-independent (membership, length, nodup).
* Network I/O and exceptions: an adapter's upstream interaction is modelled
  by an explicit outcome value (`.fail`, or a response whose items may
  themselves fail to parse, `Except Unit _`); a Python `try`/`except` that
  swallows the error and returns the accumulated list is modelled by a total
  function returning the accumulated prefix.
* SQLite timestamp strings (ISO-8601, compared lexicographically, which
  agrees with time order for a fixed format) are modelled as integers, in
  hours, so that `datetime.now() - timedelta(hours=h)` is `now - h`.
-/

namespace SynapseScanner

/-- `Paper` dataclass from `sources/__init__.py` (lines 8–21): the canonical
cross-source record with its eleven fields. -/
structure Paper where
  id : String
  title : String
  authors : List String := []
  abstract : String := ""
  url : String := ""
  pdf_url : String := ""
  published : String := ""
  source : String := ""
  citations : Int := 0
  references : List String := []
  keywords : List String := []
deriving Repr, DecidableEq

/-- A Python dict produced by `Paper.to_dict` / consumed by `Paper.from_dict`:
each of the eleven keys may be absent (`none`), since `from_dict` reads every
key with `data.get(key, default)`. -/
structure PaperDict where
  id : Option String := none
  title : Option String := none
  authors : Option (List String) := none
  abstract : Option String := none
  url : Option String := none
  pdf_url : Option String := none
  published : Option String := none
  source : Option String := none
  citations : Option Int := none
  references : Option (List String) := none
  keywords : Option (List String) := none
deriving Repr, DecidableEq

/-- `Paper.to_dict` (`sources/__init__.py` lines 23–37): emits all eleven
keys. -/
def Paper.to_dict (p : Paper) : PaperDict :=
  { id := some p.id
    title := some p.title
    authors := some p.authors
    abstract := some p.abstract
    url := some p.url
    pdf_url := some p.pdf_url
    published := some p.published
    source := some p.source
    citations := some p.citations
    references := some p.references
    keywords := some p.keywords }

/-- `Paper.from_dict` (`sources/__init__.py` lines 39–54): reads each key
with `data.get(key, default)`, the defaults being `""`, `[]` and `0`. -/
def Paper.from_dict (d : PaperDict) : Paper :=
  { id := d.id.getD ""
    title := d.title.getD ""
    authors := d.authors.getD []
    abstract := d.abstract.getD ""
    url := d.url.getD ""
    pdf_url := d.pdf_url.getD ""
    published := d.published.getD ""
    source := d.source.getD ""
    citations := d.citations.getD 0
    references := d.references.getD []
    keywords := d.keywords.getD [] }

/-- First-occurrence deduplication, used to model Python's `set`-based
deduplication and insertion-ordered `dict` keys wherever the source iterates
over one (all properties proved about it are order-independent). -/
def pyDedup {α : Type} [DecidableEq α] (l : List α) : List α :=
  l.foldl (fun acc x => if x ∈ acc then acc else acc ++ [x]) []

/-- The fixed stopword list of `BaseSource._extract_keywords`
(`sources/__init__.py` lines 108–118). -/
def keywordStopwords : List String :=
  ["the", "and", "or", "a", "an", "in", "on", "at", "to", "for",
   "of", "with", "by", "from", "as", "is", "was", "are", "were",
   "be", "been", "being", "have", "has", "had", "do", "does", "did",
   "will", "would", "could", "should", "may", "might", "must",
   "this", "that", "these", "those", "we", "our", "us", "you",
   "they", "them", "their", "it", "its", "he", "she", "his", "her",
   "paper", "study", "research", "method", "methods", "result",
   "results", "conclusion", "conclusions", "using", "based", "new",
   "approach", "proposed", "analysis", "data", "show", "shown"]

/-- Python `str.lower()`, character by character (the source only handles
ASCII text; `Char.toLower` matches Python on the basic latin range). -/
def pyLower (s : String) : String :=
  String.mk (s.data.map Char.toLower)

/-- Worker for `pyWords`: consumes the character list, building the current
word in `acc` (reversed) and cutting at whitespace. -/
def wordsAux : List Char → List Char → List String
  | [], acc => if acc.isEmpty then [] else [String.mk acc.reverse]
  | c :: cs, acc =>
    if c.isWhitespace then
      if acc.isEmpty then wordsAux cs [] else String.mk acc.reverse :: wordsAux cs []
    else wordsAux cs (c :: acc)

/-- Python `text.split()`: split on whitespace runs, dropping empty pieces. -/
def pyWords (text : String) : List String :=
  wordsAux text.data []

/-- `''.join(c for c in word if c.isalnum())`: keep only alphanumeric
characters of a word. -/
def cleanWord (w : String) : String :=
  String.mk (w.data.filter Char.isAlphanum)

/-- `BaseSource._extract_keywords` (`sources/__init__.py` lines 98–130):
lowercase the text, split on whitespace, strip non-alphanumeric characters
from each word, keep words longer than 3 characters that are not stopwords,
and return `list(set(keywords))` (modelled as first-occurrence dedup). -/
def extract_keywords (text : String) : List String :=
  pyDedup (((pyWords (pyLower text)).map cleanWord).filter
    (fun c => decide (3 < c.length) && decide (c ∉ keywordStopwords)))

/-- `Connection` dataclass from `sources/__init__.py` (lines 57–63). -/
structure Connection where
  paper_a : Paper
  paper_b : Paper
  strength : Nat
  reason : String
deriving Repr, DecidableEq

/-- The `common_words` title stopword set of `_calculate_connection`
(`crossref.py` lines 91–93). -/
def titleCommonWords : List String :=
  ["the", "a", "an", "and", "or", "of", "in", "on", "to", "for",
   "with", "by", "from", "as", "is", "are", "was", "were",
   "study", "analysis", "research", "using", "based"]

/-- `{a.lower() for a in xs}`: the set of lowercased elements, as a
duplicate-free list. -/
def lowerSet (xs : List String) : List String :=
  pyDedup (xs.map pyLower)

/-- Intersection of two Python sets modelled as duplicate-free lists:
elements of the first that occur in the second. -/
def setInter (xs ys : List String) : List String :=
  xs.filter (fun x => decide (x ∈ ys))

/-- `authors_a & authors_b` of `_calculate_connection` (`crossref.py`
lines 64–66): shared case-insensitive author names. -/
def sharedAuthors (pa pb : Paper) : List String :=
  setInter (lowerSet pa.authors) (lowerSet pb.authors)

/-- `keywords_a & keywords_b` of `_calculate_connection` (`crossref.py`
lines 76–78): shared lowercased keywords. -/
def sharedKeywords (pa pb : Paper) : List String :=
  setInter (lowerSet pa.keywords) (lowerSet pb.keywords)

/-- `set(paper.title.lower().split()) - common_words` (`crossref.py`
lines 88–95): the lowercase title word set with common words removed. -/
def titleWordSet (p : Paper) : List String :=
  (pyDedup (pyWords (pyLower p.title))).filter (fun w => decide (w ∉ titleCommonWords))

/-- `title_words_a & title_words_b` of `_calculate_connection` (`crossref.py`
line 97). -/
def sharedTitleWords (pa pb : Paper) : List String :=
  setInter (titleWordSet pa) (titleWordSet pb)

/-- `_calculate_connection` (`crossref.py` lines 53–112): computes the
(strength, reason) pair for two papers — author signal `min(shared*3, 7)`
when any author is shared, keyword signal `min(shared, 5)` when at least
`keyword_threshold` keywords are shared, title signal `min(shared, 3)` when
at least 2 title words are shared; the total is capped at 10 and a zero
total yields `(0, "")`. -/
def calculate_connection (pa pb : Paper) (keyword_threshold : Int) : Nat × String :=
  let sa := sharedAuthors pa pb
  let s1 : Nat := if sa.length > 0 then min (sa.length * 3) 7 else 0
  let r1 : List String :=
    if sa.length > 0 then ["Shared authors: " ++ String.intercalate ", " (sa.take 3)] else []
  let sk := sharedKeywords pa pb
  let s2 : Nat := if keyword_threshold ≤ (sk.length : Int) then min sk.length 5 else 0
  let r2 : List String :=
    if keyword_threshold ≤ (sk.length : Int) then
      ["Shared keywords: " ++ String.intercalate ", " (sk.take 5)]
    else []
  let stw := sharedTitleWords pa pb
  let s3 : Nat := if 2 ≤ stw.length then min stw.length 3 else 0
  let r3 : List String :=
    if 2 ≤ stw.length then
      ["Similar topics: " ++ String.intercalate ", " (stw.take 3)]
    else []
  let strength := min (s1 + s2 + s3) 10
  if strength = 0 then (0, "")
  else (strength, String.intercalate "; " (r1 ++ r2 ++ r3))

/-- The keys of `papers_by_source` (`crossref.py` lines 24–28): Python dicts
iterate in insertion order, so the distinct sources in order of first
appearance. -/
def uniqueSources (papers : List Paper) : List String :=
  pyDedup (papers.map Paper.source)

/-- The index pattern `for i, source_a in enumerate(sources): for source_b in
sources[i+1:]` (`crossref.py` lines 31–32): all ordered pairs of distinct
positions. -/
def crossSourcePairs : List String → List (String × String)
  | [] => []
  | s :: rest => (rest.map fun t => (s, t)) ++ crossSourcePairs rest

/-- `papers_by_source[s]`: the papers of one source, in input order. -/
def papersOfSource (papers : List Paper) (s : String) : List Paper :=
  papers.filter (fun p => p.source == s)

/-- The connection list built by the nested loops of `find_connections`
(`crossref.py` lines 31–45), before sorting: one `Connection` per
cross-source pair whose computed strength is positive. -/
def rawConnections (papers : List Paper) (keyword_threshold : Int) : List Connection :=
  (crossSourcePairs (uniqueSources papers)).flatMap fun pr =>
    (papersOfSource papers pr.1).flatMap fun pa =>
      (papersOfSource papers pr.2).filterMap fun pb =>
        if (calculate_connection pa pb keyword_threshold).1 > 0 then
          some ⟨pa, pb, (calculate_connection pa pb keyword_threshold).1,
                (calculate_connection pa pb keyword_threshold).2⟩
        else none

/-- `find_connections` (`crossref.py` lines 7–50): group papers by source,
compare every cross-source pair, keep positive-strength connections, and
stable-sort them by descending strength. -/
def find_connections (papers : List Paper) (keyword_threshold : Int := 3) : List Connection :=
  (rawConnections papers keyword_threshold).mergeSort
    (fun c d => d.strength ≤ c.strength)

/-- The shared-author evidence signal as the spec states it:
`min(sharedCount * 3, 7)` over the shared case-insensitive author names
(zero shared authors contribute `min(0, 7) = 0`). -/
def authorSignal (pa pb : Paper) : Nat :=
  min ((sharedAuthors pa pb).length * 3) 7

/-- The shared-keyword evidence signal as the spec states it:
`min(sharedCount, 5)` when the shared-keyword count is at least
`keyword_threshold`, `0` otherwise. -/
def keywordSignal (pa pb : Paper) (keyword_threshold : Int) : Nat :=
  if keyword_threshold ≤ ((sharedKeywords pa pb).length : Int)
  then min (sharedKeywords pa pb).length 5 else 0

/-- The title-word-overlap evidence signal as the spec states it:
`min(sharedWordCount, 3)` when at least 2 title words (after stopword
removal) are shared, `0` otherwise. -/
def titleSignal (pa pb : Paper) : Nat :=
  if 2 ≤ (sharedTitleWords pa pb).length then min (sharedTitleWords pa pb).length 3 else 0

/-! ### Cache (`cache.py`)

Timestamps are integers (in hours); SQLite compares the ISO-8601 strings
lexicographically, which for the fixed `datetime.isoformat()` layout agrees
with chronological order, so an ordered integer model is faithful.  The
`papers` table is keyed by `(id, source)` and the `queries` table is an
append-only log. -/

/-- A row of the `queries` table (`cache.py` lines 46–55). -/
structure QueryRow where
  query : String
  source : String
  max_results : Int
  timestamp : Int
  result_count : Int
deriving Repr, DecidableEq

/-- A row of the `papers` table (`cache.py` lines 28–44): the stored Paper
fields plus `fetched_at`. -/
structure PaperRow where
  paper : Paper
  fetched_at : Int
deriving Repr, DecidableEq

/-- The two tables of the SQLite store. -/
structure CacheDB where
  papers : List PaperRow
  queries : List QueryRow
deriving Repr, DecidableEq

/-- The rows matched by `SELECT id FROM queries WHERE query = ? AND source = ?
AND timestamp > ?` (`cache.py` lines 109–113). -/
def freshQueryRows (db : CacheDB) (query source : String) (cutoff : Int) : List QueryRow :=
  db.queries.filter fun r =>
    r.query == query && r.source == source && decide (cutoff < r.timestamp)

/-- The rows matched by `SELECT * FROM papers WHERE source = ? AND
fetched_at > ?` (`cache.py` lines 119–123). -/
def freshSourcePapers (db : CacheDB) (source : String) (cutoff : Int) : List PaperRow :=
  db.papers.filter fun r =>
    r.paper.source == source && decide (cutoff < r.fetched_at)

/-- `Cache.get_cached` (`cache.py` lines 94–134): `None` unless a query-log
row for the exact `(query, source)` pair lies inside the freshness window;
otherwise all papers of that `source` fetched inside the window, newest
first — `None` again if there are no such papers. -/
def get_cached (db : CacheDB) (now : Int) (query source : String)
    (max_age_hours : Int := 24) : Option (List Paper) :=
  let cutoff := now - max_age_hours
  if (freshQueryRows db query source cutoff).isEmpty then none
  else
    let rows := (freshSourcePapers db source cutoff).mergeSort
      (fun r1 r2 => r2.fetched_at ≤ r1.fetched_at)
    if rows.isEmpty then none
    else some (rows.map PaperRow.paper)

/-- The `if cached:` truthiness test of `fetch_from_sources`
(`universal_scanner.py` lines 84–88): Python treats both `None` and an empty
list as false, so the network search runs unless `get_cached` returned a
non-empty list. -/
def usesCachedResult (cached : Option (List Paper)) : Bool :=
  match cached with
  | none => false
  | some l => !l.isEmpty

/-! ### Source adapters

Each adapter's `search` is modelled as a total function over an explicit
upstream outcome.  A transport error, a non-OK status that
`raise_for_status` turns into an exception, or a body that fails to parse
are all swallowed by the adapter's `try`/`except` and produce the list
accumulated so far; an individual item that raises during parsing
(`Except.error`) aborts the loop the same way, keeping the prefix parsed
before it. -/

/-- Parse each successfully-delivered item in order, stopping at the first
item whose parse raises (the exception propagates to the adapter's
`except` clause, which keeps the papers accumulated so far). -/
def collectParsed {α : Type} (parse : α → Paper) : List (Except Unit α) → List Paper
  | [] => []
  | .error _ :: _ => []
  | .ok a :: rest => parse a :: collectParsed parse rest

/-- The fields of an arXiv Atom `<entry>` used by `ArXivSource._parse_entry`
(`arxiv.py` lines 51–106): element text is `Option` (absent element →
default). -/
structure AtomEntry where
  title : Option String := none
  summary : Option String := none
  idUrl : Option String := none
  published : Option String := none
  authorNames : List String := []
  categoryTerms : List String := []
deriving Repr, DecidableEq

/-- `ArXivSource._parse_entry` (`arxiv.py` lines 51–106). -/
def arxivParseEntry (e : AtomEntry) : Paper :=
  let title := (e.title.map String.trim).getD "Unknown"
  let abstract := (e.summary.map String.trim).getD ""
  let url := (e.idUrl.map String.trim).getD ""
  let rawId := if url ≠ "" then (url.splitOn "/").getLastD "" else ""
  let arxiv_id := if rawId.contains 'v' then ((rawId.splitOn "v").headD "") else rawId
  let pdf_url := if arxiv_id ≠ "" then "https://arxiv.org/pdf/" ++ arxiv_id ++ ".pdf" else ""
  let published := (e.published.map String.trim).getD ""
  let catKeywords := (e.categoryTerms.filter (fun t => t ≠ "")).map pyLower
  let textKeywords := extract_keywords (title ++ " " ++ abstract)
  let keywords := catKeywords ++ textKeywords.filter (fun k => decide (k ∉ catKeywords))
  { id := arxiv_id
    title := title
    authors := e.authorNames.map String.trim
    abstract := abstract
    url := url
    pdf_url := pdf_url
    published := published
    source := "arxiv"
    citations := 0
    keywords := keywords.take 20 }

/-- Upstream outcome of the single arXiv request of `ArXivSource.search`:
`fail` covers a transport error, a `raise_for_status` exception and an
unparseable Atom body (all reach the same `except` clause). -/
inductive ArxivResp where
  | fail : ArxivResp
  | entries (items : List (Except Unit AtomEntry)) : ArxivResp
deriving Repr

/-- `ArXivSource.search` (`arxiv.py` lines 16–49).  `limit` is only sent as
the `max_results` request parameter; the parse loop appends every entry of
the response (`_parse_entry` always returns a truthy `Paper`). -/
def arxivSearch (resp : ArxivResp) (limit : Int) : List Paper :=
  let _ := limit
  match resp with
  | .fail => []
  | .entries items => collectParsed arxivParseEntry items

/-- The fields of a Semantic Scholar search item used by
`SemanticScholarSource._parse_paper` (`semantic_scholar.py` lines 50–93).
`openAccessPdf` is doubly optional: the outer layer is the possibly-`null`
`pdf_info` dict, the inner the `url` key inside it. -/
structure SSItem where
  paperId : Option String := none
  title : Option String := none
  abstract : Option String := none
  url : Option String := none
  openAccessPdf : Option (Option String) := none
  year : Option Int := none
  authorNames : List String := []
  citationCount : Option Int := none
deriving Repr, DecidableEq

/-- `SemanticScholarSource._parse_paper` (`semantic_scholar.py` lines
50–93). -/
def ssParsePaper (d : SSItem) : Paper :=
  let paper_id := d.paperId.getD ""
  let title := d.title.getD "Unknown"
  let abstract := d.abstract.getD ""
  let url0 := d.url.getD ""
  let url := if url0 = "" && paper_id ≠ ""
    then "https://www.semanticscholar.org/paper/" ++ paper_id else url0
  let pdf_url := match d.openAccessPdf with
    | none => ""
    | some u => u.getD ""
  let published := match d.year with
    | some y => if y ≠ 0 then toString y ++ "-01-01" else ""
    | none => ""
  let authors := d.authorNames.filter (fun n => n ≠ "")
  let citations := d.citationCount.getD 0
  { id := paper_id
    title := title
    authors := authors
    abstract := abstract
    url := url
    pdf_url := pdf_url
    published := published
    source := "semantic_scholar"
    citations := citations
    keywords := (extract_keywords (title ++ " " ++ abstract)).take 20 }

/-- Upstream outcome of the Semantic Scholar search request: `fail` covers a
transport error and a `resp.json()` that raises; otherwise the HTTP status
code and the items of `data.get("data", [])`. -/
inductive SSResp where
  | fail : SSResp
  | status (code : Nat) (items : List (Except Unit SSItem)) : SSResp
deriving Repr

/-- `SemanticScholarSource.search` (`semantic_scholar.py` lines 15–48): only
a 200 response is parsed (429 and every other status fall through to
`return papers`); `limit` is only sent as a request parameter. -/
def ssSearch (resp : SSResp) (limit : Int) : List Paper :=
  let _ := limit
  match resp with
  | .fail => []
  | .status code items => if code = 200 then collectParsed ssParsePaper items else []

/-- Python `str.isdigit()` for ASCII digits: non-empty and all digits. -/
def pyIsDigit (s : String) : Bool :=
  !s.isEmpty && s.data.all Char.isDigit

/-- The fields of a PubMed esummary document used by
`PubMedSource._parse_paper` (`pubmed.py` lines 108–157): `articleIds` is the
list of `(idtype, value)` pairs. -/
structure PMDoc where
  title : Option String := none
  authorNames : List String := []
  pubdate : Option String := none
  articleIds : List (String × String) := []
deriving Repr, DecidableEq

/-- `PubMedSource._parse_paper` (`pubmed.py` lines 108–157). -/
def pubmedParsePaper (pmid : String) (doc : PMDoc) (abstract : String) : Paper :=
  let title := doc.title.getD "Unknown"
  let authors := doc.authorNames.filter (fun n => n ≠ "")
  let pubdate := doc.pubdate.getD ""
  let published :=
    match pyWords pubdate with
    | year :: _ => if pyIsDigit year && year.length = 4 then year ++ "-01-01" else ""
    | [] => ""
  let doi := ((doc.articleIds.find? (fun a => a.1 == "doi")).map Prod.snd).getD ""
  let url := "https://pubmed.ncbi.nlm.nih.gov/" ++ pmid ++ "/"
  let pdf_url := if doi ≠ "" then "https://doi.org/" ++ doi else ""
  { id := pmid
    title := title
    authors := authors
    abstract := abstract
    url := url
    pdf_url := pdf_url
    published := published
    source := "pubmed"
    citations := 0
    keywords := (extract_keywords (title ++ " " ++ abstract)).take 20 }

/-- The per-PMID loop of `PubMedSource.search` (`pubmed.py` lines 62–67):
`summary_data["result"].get(pmid, {})` is an association-list lookup (a
missing or empty/falsy doc is skipped); a doc whose parse raises aborts the
loop, keeping the prefix. -/
def pubmedCollect (docs : List (String × Except Unit PMDoc))
    (abstracts : List (String × String)) : List String → List Paper
  | [] => []
  | pmid :: rest =>
    match docs.lookup pmid with
    | none => pubmedCollect docs abstracts rest
    | some (.error _) => []
    | some (.ok doc) =>
      pubmedParsePaper pmid doc ((abstracts.lookup pmid).getD "") ::
        pubmedCollect docs abstracts rest

/-- `PubMedSource.search` (`pubmed.py` lines 19–72): esearch gives the PMID
list (`.error` = transport/parse failure on that request, caught), an empty
PMID list short-circuits, esummary gives the docs; `_fetch_abstracts` has
its own `try`/`except` and always yields a (possibly partial) abstract map.
`limit` is only sent as the `retmax` request parameter. -/
def pubmedSearch (esearch : Except Unit (List String))
    (esummary : Except Unit (List (String × Except Unit PMDoc)))
    (abstracts : List (String × String)) (limit : Int) : List Paper :=
  let _ := limit
  match esearch with
  | .error _ => []
  | .ok idlist =>
    if idlist.isEmpty then []
    else
      match esummary with
      | .error _ => []
      | .ok docs => pubmedCollect docs abstracts idlist

/-- The fields of a bioRxiv/medRxiv collection item used by
`BioRxivSource._parse_paper` (`biorxiv.py` lines 89–134). -/
structure BxItem where
  doi : Option String := none
  title : Option String := none
  abstract : Option String := none
  authorString : Option String := none
  date : Option String := none
deriving Repr, DecidableEq

/-- Substring test, Python's `needle in hay`. -/
def strContainsSub (hay needle : String) : Bool :=
  hay.data.tails.any (fun t => needle.data.isPrefixOf t)

/-- Models the `datetime.strptime(date_str, "%Y-%m-%d")` /
`strftime("%Y-%m-%d")` round trip of `_parse_paper` (`biorxiv.py` lines
106–114): a digit triple in plausible ranges is re-emitted zero-padded; any
other string falls into the `except ValueError` branch and is returned
unchanged.  (Month-specific day maxima are not re-checked; the API serves
canonical zero-padded dates, for which the round trip is the identity.) -/
def bxNormalizeDate (s : String) : String :=
  match s.splitOn "-" with
  | [y, m, d] =>
    match y.toNat?, m.toNat?, d.toNat? with
    | some _, some mn, some dn =>
      if y.length = 4 && 1 ≤ mn && mn ≤ 12 && 1 ≤ dn && dn ≤ 31 then
        y ++ "-" ++ (if m.length < 2 then "0" ++ m else m) ++ "-" ++
          (if d.length < 2 then "0" ++ d else d)
      else s
    | _, _, _ => s
  | _ => s

/-- `BioRxivSource._parse_paper` (`biorxiv.py` lines 89–134): note the
`source` field is the *server* the item came from (`"biorxiv"` or
`"medrxiv"`), not the adapter's registered name. -/
def bxParsePaper (d : BxItem) (server : String) : Paper :=
  let doi := d.doi.getD ""
  let title := d.title.getD "Unknown"
  let abstract := d.abstract.getD ""
  let authors := ((d.authorString.getD "").splitOn ";").map String.trim
    |>.filter (fun n => n ≠ "")
  let date_str := d.date.getD ""
  let published := if date_str ≠ "" then bxNormalizeDate date_str else ""
  let url := if doi ≠ "" then "https://www." ++ server ++ ".org/content/" ++ doi else ""
  let pdf_url := if doi ≠ ""
    then "https://www." ++ server ++ ".org/content/" ++ doi ++ ".full.pdf" else ""
  { id := doi
    title := title
    authors := authors
    abstract := abstract
    url := url
    pdf_url := pdf_url
    published := published
    source := server
    citations := 0
    keywords := (extract_keywords (title ++ " " ++ abstract)).take 20 }

/-- Upstream outcome of one `_fetch_from_server` request (`biorxiv.py`
lines 50–85): `fail` covers a transport error, a `raise_for_status`
exception and an unparseable JSON body; otherwise the items of
`data.get("collection", [])`, each of which may itself raise while being
read or parsed (`Except.error`). -/
inductive BxResp where
  | fail : BxResp
  | collection (items : List (Except Unit BxItem)) : BxResp
deriving Repr

/-- The delivered collection items of a server response (`fail` delivered
none). -/
def BxResp.items : BxResp → List (Except Unit BxItem)
  | .fail => []
  | .collection l => l

/-- The collection loop of `BioRxivSource._fetch_from_server` (`biorxiv.py`
lines 64–82): filter items by case-insensitive substring match of the query
against title+abstract, parse each kept item, and `break` once `limit`
papers are accumulated.  An item that raises while being read aborts the
loop; the function's own `except` clause then returns the papers
accumulated so far. -/
def bxCollect (server queryLower : String) (limit : Nat) :
    List (Except Unit BxItem) → List Paper → List Paper
  | [], acc => acc
  | .error _ :: _, acc => acc
  | .ok item :: rest, acc =>
    let title := item.title.getD ""
    let abstract := item.abstract.getD ""
    if queryLower ≠ "" &&
        !(strContainsSub (pyLower (title ++ " " ++ abstract)) queryLower) then
      bxCollect server queryLower limit rest acc
    else
      let acc2 := acc ++ [bxParsePaper item server]
      if limit ≤ acc2.length then acc2 else bxCollect server queryLower limit rest acc2

/-- `BioRxivSource._fetch_from_server` (`biorxiv.py` lines 45–87): a failed
request reaches the function's own `except` clause with nothing accumulated
and yields `[]`; otherwise the collection loop runs. -/
def bxFetchFromServer (resp : BxResp) (server queryLower : String) (limit : Nat) :
    List Paper :=
  match resp with
  | .fail => []
  | .collection items => bxCollect server queryLower limit items []

/-- `BioRxivSource.search` (`biorxiv.py` lines 16–43): collect from the
biorxiv server first, then — if still short of `limit` — from the medrxiv
server with the remaining budget, and return `papers[:limit]`.  Both server
requests are best-effort (`_fetch_from_server` swallows its own failures),
so `search` itself never raises. -/
def bioRxivSearch (bioResp medResp : BxResp) (query : String) (limit : Nat) :
    List Paper :=
  let queryLower := if query ≠ "" then pyLower query else ""
  let papers := bxFetchFromServer bioResp "biorxiv" queryLower limit
  let papers :=
    if papers.length < limit then
      papers ++ bxFetchFromServer medResp "medrxiv" queryLower (limit - papers.length)
    else papers
  papers.take limit

/-- `SOURCE_REGISTRY` after the four adapter modules run their
`register_source` calls (`sources/__init__.py` lines 140–146, `arxiv.py`
line 114, `semantic_scholar.py` line 129, `pubmed.py` line 165, `biorxiv.py`
line 142): the registered name paired with the adapter class name. -/
def SOURCE_REGISTRY : List (String × String) :=
  [("arxiv", "ArXivSource"),
   ("semantic_scholar", "SemanticScholarSource"),
   ("pubmed", "PubMedSource"),
   ("biorxiv", "BioRxivSource")]

/-- The names under which adapters are registered. -/
def registeredSourceNames : List String :=
  SOURCE_REGISTRY.map Prod.fst

/-! ### Reference traversal (`universal_scanner.py`) -/

/-- The dedup key `(paper.id, paper.source)` of `fetch_references_recursive`
(`universal_scanner.py` lines 125, 139). -/
def paperKey (p : Paper) : String × String :=
  (p.id, p.source)

/-- The inner `for ref in refs[:max_per_paper]` loop (`universal_scanner.py`
lines 138–142), threading `(new_papers, seen_ids)`: a reference whose key
was already seen is skipped, otherwise it is appended and its key recorded
(the `seen_ids` Python set is modelled as a list; only membership is
used). -/
def addRefs : List Paper → List Paper × List (String × String) →
    List Paper × List (String × String)
  | [], st => st
  | r :: rs, st =>
    if paperKey r ∈ st.2 then addRefs rs st
    else addRefs rs (st.1 ++ [r], st.2 ++ [paperKey r])

/-- One level of expansion (`universal_scanner.py` lines 130–144): for each
frontier paper, look its source up (`get_source` returning `None` skips the
paper, as does a `fetch_references` exception — both are the `none` case of
the oracle), then fold the first `max_per_paper` references in. -/
def levelStep (oracle : Paper → Option (List Paper)) (max_per_paper : Nat) :
    List Paper → List Paper × List (String × String) →
    List Paper × List (String × String)
  | [], st => st
  | p :: rest, st =>
    match oracle p with
    | none => levelStep oracle max_per_paper rest st
    | some refs => levelStep oracle max_per_paper rest (addRefs (refs.take max_per_paper) st)

/-- The `for level in range(depth)` loop (`universal_scanner.py` lines
127–152): expand the previous level's new papers only, stop early when a
level finds nothing new, and accumulate discovery order. -/
def rabbitLoop (oracle : Paper → Option (List Paper)) (max_per_paper : Nat) :
    Nat → List Paper → List Paper → List (String × String) → List Paper
  | 0, _, all, _ => all
  | Nat.succ n, frontier, all, seen =>
    let st := levelStep oracle max_per_paper frontier ([], seen)
    if st.1.isEmpty then all
    else rabbitLoop oracle max_per_paper n st.1 (all ++ st.1) st.2

/-- `fetch_references_recursive` (`universal_scanner.py` lines 109–154):
`depth <= 0` returns the input unchanged; otherwise seed `seen_ids` with the
input keys and run `depth` levels.  The oracle stands for
`get_source(paper.source).fetch_references(paper)`, with `none` covering an
unknown source and a caught adapter exception. -/
def fetch_references_recursive (oracle : Paper → Option (List Paper))
    (papers : List Paper) (depth : Int) (max_per_paper : Nat := 5) : List Paper :=
  if depth ≤ 0 then papers
  else rabbitLoop oracle max_per_paper depth.toNat papers papers (papers.map paperKey)

/-- Invariant threaded through one traversal level relative to the seen set
`seen0` at the level's start: the current seen set is `seen0` extended by
exactly the keys of the papers added so far, those keys are mutually
distinct, and none of them was in `seen0`. -/
def LevelInv (seen0 : List (String × String))
    (st : List Paper × List (String × String)) : Prop :=
  st.2 = seen0 ++ st.1.map paperKey ∧
  (st.1.map paperKey).Nodup ∧
  ∀ k ∈ st.1.map paperKey, k ∉ seen0

/-! ### Concrete fixtures

Small concrete inputs used to witness the hypotheses of the theorems below
and to exhibit counterexamples. -/

/-- An arXiv-sourced paper sharing an author (up to case) with `pWB`. -/
def pWA : Paper :=
  { id := "A1", title := "alpha", authors := ["Jane Doe"], source := "arxiv" }

/-- A PubMed-sourced paper sharing an author (up to case) with `pWA`. -/
def pWB : Paper :=
  { id := "B1", title := "beta", authors := ["jane doe"], source := "pubmed" }

/-- The single connection the engine finds between `pWA` and `pWB`. -/
def cW : Connection :=
  { paper_a := pWA, paper_b := pWB, strength := 3, reason := "Shared authors: jane doe" }

/-- A cache with one fresh query-log row for `("q", "arxiv")` and one fresh
arXiv paper that was in fact stored for a *different* query. -/
def dbW : CacheDB :=
  { papers := [{ paper := pWA, fetched_at := 100 }],
    queries := [{ query := "q", source := "arxiv", max_results := 10,
                  timestamp := 100, result_count := 1 }] }

/-- A cache with a fresh query-log row but no stored papers at all. -/
def dbWempty : CacheDB :=
  { papers := [],
    queries := [{ query := "q", source := "arxiv", max_results := 10,
                  timestamp := 100, result_count := 0 }] }

/-- A minimal parseable Atom entry. -/
def eW1 : AtomEntry := { title := some "Quantum widgets" }

/-- A second minimal parseable Atom entry. -/
def eW2 : AtomEntry := { title := some "Plasma gadgets" }

/-- A minimal bioRxiv/medRxiv collection item. -/
def bxW : BxItem := { doi := some "10.1101/2024.01.01.5730", title := some "Genomics advances" }

/-- A root paper for a traversal witness. -/
def pW8 : Paper := { id := "R0", title := "root", source := "semantic_scholar" }

/-- A referenced paper for a traversal witness. -/
def pW8r : Paper := { id := "R1", title := "leaf", source := "semantic_scholar" }

/-- A reference oracle that always returns `[pW8r]`. -/
def oracleW : Paper → Option (List Paper) := fun _ => some [pW8r]

/-- A paper used twice in a duplicate-input list. -/
def pDupW : Paper := { id := "D1", title := "dup", source := "arxiv" }

/-! ## Helper lemmas -/

/-- Folding insert-if-absent preserves `Nodup`. -/
theorem nodup_foldlInsert {α : Type} [DecidableEq α] :
    ∀ (l acc : List α), acc.Nodup →
      (l.foldl (fun acc x => if x ∈ acc then acc else acc ++ [x]) acc).Nodup := by
  intro l
  induction l with
  | nil => intro acc h; exact h
  | cons x xs ih =>
    intro acc h
    simp only [List.foldl_cons]
    by_cases hx : x ∈ acc
    · rw [if_pos hx]; exact ih acc h
    · rw [if_neg hx]
      refine ih _ ?_
      simp [List.nodup_append, h, hx, List.disjoint_singleton]

/-- `pyDedup` output has no duplicates. -/
theorem pyDedup_nodup {α : Type} [DecidableEq α] (l : List α) : (pyDedup l).Nodup :=
  nodup_foldlInsert l [] List.nodup_nil

/-- Membership through the insert-if-absent fold. -/
theorem mem_foldlInsert {α : Type} [DecidableEq α] :
    ∀ (l acc : List α) (y : α),
      (y ∈ l.foldl (fun acc x => if x ∈ acc then acc else acc ++ [x]) acc
        ↔ y ∈ acc ∨ y ∈ l) := by
  intro l
  induction l with
  | nil => intro acc y; simp
  | cons x xs ih =>
    intro acc y
    simp only [List.foldl_cons]
    by_cases hx : x ∈ acc
    · rw [if_pos hx, ih]
      constructor
      · rintro (h | h)
        · exact Or.inl h
        · exact Or.inr (List.mem_cons_of_mem _ h)
      · rintro (h | h)
        · exact Or.inl h
        · rcases List.mem_cons.mp h with rfl | h
          · exact Or.inl hx
          · exact Or.inr h
    · rw [if_neg hx, ih]
      simp only [List.mem_append, List.mem_singleton, List.mem_cons]
      tauto

/-- `pyDedup` preserves membership. -/
theorem mem_pyDedup {α : Type} [DecidableEq α] {l : List α} {y : α} :
    y ∈ pyDedup l ↔ y ∈ l := by
  simpa using mem_foldlInsert l [] y

/-- `Char.toNat` inverts `Char.ofNat` on valid code points. -/
theorem char_toNat_ofNat (n : Nat) (h : n.isValidChar) : (Char.ofNat n).toNat = n := by
  simp [Char.ofNat, h, Char.ofNatAux, Char.toNat, UInt32.toNat, BitVec.toNat_ofNatLt]

/-- `Char.toLower` is idempotent. -/
theorem char_toLower_toLower (c : Char) : c.toLower.toLower = c.toLower := by
  simp only [Char.toLower]
  split_ifs with h1 h2
  · exfalso
    have hv : Nat.isValidChar (c.toNat + 32) := Or.inl (by omega)
    rw [char_toNat_ofNat _ hv] at h2
    omega
  all_goals rfl

/-- Every character of a word split off by `wordsAux` comes from the input
characters or the pending accumulator. -/
theorem mem_of_mem_wordsAux :
    ∀ (cs acc : List Char) (w : String), w ∈ wordsAux cs acc →
      ∀ ch ∈ w.data, ch ∈ cs ∨ ch ∈ acc := by
  intro cs
  induction cs with
  | nil =>
    intro acc w hw ch hch
    simp only [wordsAux] at hw
    split at hw
    · simp at hw
    · rcases List.mem_singleton.mp hw with rfl
      right
      simpa using hch
  | cons c cs ih =>
    intro acc w hw ch hch
    simp only [wordsAux] at hw
    split at hw
    · split at hw
      · rcases ih [] w hw ch hch with h | h
        · exact Or.inl (List.mem_cons_of_mem _ h)
        · simp at h
      · rcases List.mem_cons.mp hw with rfl | hw2
        · right
          simpa using hch
        · rcases ih [] w hw2 ch hch with h | h
          · exact Or.inl (List.mem_cons_of_mem _ h)
          · simp at h
    · rcases ih (c :: acc) w hw ch hch with h | h
      · exact Or.inl (List.mem_cons_of_mem _ h)
      · rcases List.mem_cons.mp h with rfl | h
        · exact Or.inl (List.mem_cons_self _ _)
        · exact Or.inr h

/-- Every character of a word of `pyWords s` is a character of `s`. -/
theorem mem_of_mem_pyWords {s : String} {w : String} (hw : w ∈ pyWords s)
    {ch : Char} (hch : ch ∈ w.data) : ch ∈ s.data := by
  rcases mem_of_mem_wordsAux s.data [] w hw ch hch with h | h
  · exact h
  · simp at h

/-- Projecting the final `(strength, reason)` pair of `_calculate_connection`
onto strength: both branches of the zero test yield the computed strength. -/
theorem ite_pair_fst (s : Nat) (r : String) :
    (if s = 0 then ((0 : Nat), "") else (s, r)).1 = s := by
  split_ifs with h
  · simp [h]
  · rfl

/-- The strength computed by `_calculate_connection` is the capped sum of
the three evidence signals. -/
theorem calculate_connection_fst (pa pb : Paper) (kt : Int) :
    (calculate_connection pa pb kt).1 =
      min (authorSignal pa pb + keywordSignal pa pb kt + titleSignal pa pb) 10 := by
  have hA : authorSignal pa pb =
      (if (sharedAuthors pa pb).length > 0
        then min ((sharedAuthors pa pb).length * 3) 7 else 0) := by
    unfold authorSignal
    by_cases h : (sharedAuthors pa pb).length > 0
    · rw [if_pos h]
    · rw [if_neg h]
      omega
  simp only [calculate_connection, ite_pair_fst]
  rw [hA]
  rfl

/-- Characterization of a membership in the pre-sort connection list. -/
theorem mem_rawConnections {papers : List Paper} {kt : Int} {c : Connection}
    (hc : c ∈ rawConnections papers kt) :
    ∃ pr ∈ crossSourcePairs (uniqueSources papers),
      ∃ pa ∈ papersOfSource papers pr.1, ∃ pb ∈ papersOfSource papers pr.2,
        0 < (calculate_connection pa pb kt).1 ∧
        c = ⟨pa, pb, (calculate_connection pa pb kt).1,
             (calculate_connection pa pb kt).2⟩ := by
  simp only [rawConnections, List.mem_flatMap, List.mem_filterMap] at hc
  obtain ⟨pr, hpr, pa, hpa, pb, hpb, hsome⟩ := hc
  refine ⟨pr, hpr, pa, hpa, pb, hpb, ?_⟩
  split at hsome
  · rename_i hpos
    cases hsome
    exact ⟨hpos, rfl⟩
  · cases hsome

/-- Members of `find_connections` output are members of the pre-sort list. -/
theorem mem_rawConnections_of_mem_find {papers : List Paper} {kt : Int} {c : Connection}
    (hc : c ∈ find_connections papers kt) : c ∈ rawConnections papers kt := by
  have hc2 : c ∈ (rawConnections papers kt).mergeSort
      (fun c d => d.strength ≤ c.strength) := hc
  exact (List.mergeSort_perm (rawConnections papers kt) _).mem_iff.mp hc2

/-- Sources drawn from distinct positions of a duplicate-free list differ. -/
theorem crossSourcePairs_ne :
    ∀ {l : List String}, l.Nodup → ∀ {pr : String × String},
      pr ∈ crossSourcePairs l → pr.1 ≠ pr.2 := by
  intro l
  induction l with
  | nil => intro _ pr hpr; simp [crossSourcePairs] at hpr
  | cons s rest ih =>
    intro h pr hpr
    simp only [crossSourcePairs, List.mem_append, List.mem_map] at hpr
    rcases hpr with ⟨t, ht, rfl⟩ | hpr
    · dsimp only
      intro he
      exact (List.nodup_cons.mp h).1 (by rw [he]; exact ht)
    · exact ih (List.nodup_cons.mp h).2 hpr

/-- A paper filtered into a source group has that group's source name. -/
theorem source_of_mem_papersOfSource {papers : List Paper} {s : String} {p : Paper}
    (hp : p ∈ papersOfSource papers s) : p.source = s := by
  have := (List.mem_filter.mp hp).2
  simpa using this

/-! ## Claims -/

/-- C7: For every Paper `p`, `from_dict (to_dict p) = p` — the serialization
pair round-trips exactly on all eleven fields. -/
theorem paper_roundtrip (p : Paper) : Paper.from_dict (Paper.to_dict p) = p := rfl

/-- C1: every Connection emitted by `find_connections` has strength equal to
the capped (at 10) sum of the three independent evidence signals — shared
case-insensitive authors `min(shared * 3, 7)`, shared keywords
`min(shared, 5)` gated by `keyword_threshold`, shared non-stopword title
words `min(shared, 3)` gated at 2 — and since zero-strength pairs are not
emitted, every emitted strength lies between 1 and 10. -/
theorem connection_strength_sum_capped (papers : List Paper) (kt : Int) (c : Connection)
    (hc : c ∈ find_connections papers kt) :
    c.strength = min (authorSignal c.paper_a c.paper_b +
      keywordSignal c.paper_a c.paper_b kt + titleSignal c.paper_a c.paper_b) 10 ∧
    1 ≤ c.strength ∧ c.strength ≤ 10 := by
  obtain ⟨pr, hpr, pa, hpa, pb, hpb, hpos, rfl⟩ :=
    mem_rawConnections (mem_rawConnections_of_mem_find hc)
  dsimp only
  refine ⟨calculate_connection_fst pa pb kt, by omega, ?_⟩
  rw [calculate_connection_fst]
  omega

/-- Witness for C1 at a concrete input: `cW` is emitted for `[pWA, pWB]` and
satisfies the strength formula and bounds. -/
theorem connection_strength_sum_capped_witness :
    cW.strength = min (authorSignal cW.paper_a cW.paper_b +
      keywordSignal cW.paper_a cW.paper_b 3 + titleSignal cW.paper_a cW.paper_b) 10 ∧
    1 ≤ cW.strength ∧ cW.strength ≤ 10 :=
  connection_strength_sum_capped [pWA, pWB] 3 cW
    ((List.mergeSort_perm (rawConnections [pWA, pWB] 3) _).mem_iff.mpr (by decide))

/-- C5: `find_connections` never emits a Connection between two papers of
the same source. -/
theorem connections_never_same_source (papers : List Paper) (kt : Int) (c : Connection)
    (hc : c ∈ find_connections papers kt) :
    c.paper_a.source ≠ c.paper_b.source := by
  obtain ⟨pr, hpr, pa, hpa, pb, hpb, hpos, rfl⟩ :=
    mem_rawConnections (mem_rawConnections_of_mem_find hc)
  have h1 : pa.source = pr.1 := source_of_mem_papersOfSource hpa
  have h2 : pb.source = pr.2 := source_of_mem_papersOfSource hpb
  simpa [h1, h2] using crossSourcePairs_ne (pyDedup_nodup _) hpr

/-- Witness for C5 at a concrete input: the connection emitted for
`[pWA, pWB]` joins papers of different sources. -/
theorem connections_never_same_source_witness :
    cW.paper_a.source ≠ cW.paper_b.source :=
  connections_never_same_source [pWA, pWB] 3 cW
    ((List.mergeSort_perm (rawConnections [pWA, pWB] 3) _).mem_iff.mpr (by decide))

/-- C2: `get_cached` answers `some` only when a query-log row for the exact
`(query, source)` pair lies inside the freshness window, and the list it
then returns consists of every paper of that source fetched inside the
window — independent of which query stored it. -/
theorem get_cached_exact_pair_unscoped_results (db : CacheDB) (now : Int)
    (q s : String) (h : Int) (l : List Paper)
    (hl : get_cached db now q s h = some l) :
    (∃ r ∈ db.queries, r.query = q ∧ r.source = s ∧ now - h < r.timestamp) ∧
    (∀ p : Paper, p ∈ l ↔
      ∃ row ∈ db.papers, row.paper = p ∧ p.source = s ∧ now - h < row.fetched_at) := by
  simp only [get_cached] at hl
  split at hl
  · exact absurd hl (by simp)
  · rename_i hq
    split at hl
    · exact absurd hl (by simp)
    · rename_i hrows
      have hl2 := Option.some.inj hl
      constructor
      · have hne : freshQueryRows db q s (now - h) ≠ [] := by
          intro h0
          rw [h0] at hq
          exact hq rfl
        obtain ⟨r, hr⟩ := List.exists_mem_of_ne_nil _ hne
        have hr2 := List.mem_filter.mp hr
        have hr3 := hr2.2
        simp only [Bool.and_eq_true, beq_iff_eq, decide_eq_true_eq] at hr3
        exact ⟨r, hr2.1, hr3.1.1, hr3.1.2, hr3.2⟩
      · intro p
        rw [← hl2]
        simp only [List.mem_map]
        constructor
        · rintro ⟨row, hrow, rfl⟩
          have hrow2 : row ∈ freshSourcePapers db s (now - h) :=
            (List.mergeSort_perm _ _).mem_iff.mp hrow
          have hrow3 := List.mem_filter.mp hrow2
          have hrow4 := hrow3.2
          simp only [Bool.and_eq_true, beq_iff_eq, decide_eq_true_eq] at hrow4
          exact ⟨row, hrow3.1, rfl, hrow4.1, hrow4.2⟩
        · rintro ⟨row, hrow, rfl, hs, hf⟩
          refine ⟨row, ?_, rfl⟩
          refine (List.mergeSort_perm _ _).mem_iff.mpr ?_
          refine List.mem_filter.mpr ⟨hrow, ?_⟩
          simp only [Bool.and_eq_true, beq_iff_eq, decide_eq_true_eq]
          exact ⟨hs, hf⟩

/-- Witness for C2 at a concrete input: `dbW` holds a fresh query row for
`("q", "arxiv")` and one fresh arXiv paper, and `get_cached` returns exactly
the source-wide fresh papers. -/
theorem get_cached_exact_pair_unscoped_results_witness :
    (∃ r ∈ dbW.queries, r.query = "q" ∧ r.source = "arxiv" ∧
      (101 : Int) - 24 < r.timestamp) ∧
    (∀ p : Paper, p ∈ [pWA] ↔
      ∃ row ∈ dbW.papers, row.paper = p ∧ p.source = "arxiv" ∧
        (101 : Int) - 24 < row.fetched_at) :=
  get_cached_exact_pair_unscoped_results dbW 101 "q" "arxiv" 24 [pWA]
    (by simp [get_cached, freshQueryRows, freshSourcePapers, dbW, pWA])

/-- C10: with a fresh query-log row but no fresh paper of the source,
`get_cached` returns `None` (never an empty list), so the scanner's
`if cached:` test fails and the next identical scan goes back to the
network. -/
theorem get_cached_none_without_fresh_papers (db : CacheDB) (now : Int)
    (q s : String) (h : Int)
    (hq : ∃ r ∈ db.queries, r.query = q ∧ r.source = s ∧ now - h < r.timestamp)
    (hp : ∀ row ∈ db.papers, row.paper.source = s → row.fetched_at ≤ now - h) :
    get_cached db now q s h = none ∧
    usesCachedResult (get_cached db now q s h) = false := by
  have hfresh : freshSourcePapers db s (now - h) = [] := by
    refine List.filter_eq_nil_iff.mpr ?_
    intro row hrow
    simp only [Bool.and_eq_true, beq_iff_eq, decide_eq_true_eq, not_and]
    intro hs
    have := hp row hrow hs
    omega
  have hnone : get_cached db now q s h = none := by
    simp only [get_cached, hfresh]
    split
    · rfl
    · simp
  exact ⟨hnone, by rw [hnone]; rfl⟩

/-- Witness for C10 at a concrete input: `dbWempty` has a fresh query row
and no papers, and `get_cached` misses. -/
theorem get_cached_none_without_fresh_papers_witness :
    get_cached dbWempty 101 "q" "arxiv" 24 = none ∧
    usesCachedResult (get_cached dbWempty 101 "q" "arxiv" 24) = false :=
  get_cached_none_without_fresh_papers dbWempty 101 "q" "arxiv" 24
    (by refine ⟨{ query := "q", source := "arxiv", max_results := 10,
                  timestamp := 100, result_count := 0 }, ?_, rfl, rfl, by decide⟩
        simp [dbWempty])
    (by intro row hrow; simp [dbWempty] at hrow)

/-- `collectParsed` over error-free items parses them all, in order. -/
theorem collectParsed_map_ok {α : Type} (f : α → Paper) (l : List α) :
    collectParsed f (l.map Except.ok) = l.map f := by
  induction l with
  | nil => rfl
  | cons a l ih => simp [collectParsed, ih]

/-- C3 counterexample: the arXiv adapter does not truncate locally — called
with `limit = 1` against a response carrying two parseable entries, its
`search` returns 2 papers. -/
theorem adapters_truncate_locally_counterexample :
    1 < (arxivSearch (.entries [.ok eW1, .ok eW2]) 1).length := by decide

/-- The PubMed collection loop yields one Paper per PMID when every PMID
has a successfully parsed summary doc. -/
theorem pubmedCollect_length {docs : List (String × Except Unit PMDoc)}
    {abstracts : List (String × String)} :
    ∀ {ids : List String}, (∀ i ∈ ids, ∃ d, docs.lookup i = some (Except.ok d)) →
      (pubmedCollect docs abstracts ids).length = ids.length := by
  intro ids
  induction ids with
  | nil => intro _; rfl
  | cons pmid rest ih =>
    intro h
    obtain ⟨d, hd⟩ := h pmid (List.mem_cons_self _ _)
    rw [pubmedCollect, hd]
    simp only [List.length_cons]
    rw [ih (fun i hi => h i (List.mem_cons_of_mem _ hi))]

/-- C3 amended: only the biorxiv adapter truncates locally
(`return papers[:limit]`); the arxiv, semantic_scholar and pubmed adapters
only pass `limit` as a request parameter and return one Paper per parseable
upstream item, exceeding `limit` whenever the upstream sends more. -/
theorem only_biorxiv_truncates_locally :
    (∀ (bioResp medResp : BxResp) (query : String) (limit : Nat),
      (bioRxivSearch bioResp medResp query limit).length ≤ limit) ∧
    (∀ (entries : List AtomEntry) (limit : Int),
      arxivSearch (.entries (entries.map Except.ok)) limit = entries.map arxivParseEntry) ∧
    (∀ (items : List SSItem) (limit : Int),
      ssSearch (.status 200 (items.map Except.ok)) limit = items.map ssParsePaper) ∧
    (∀ (ids : List String) (docs : List (String × Except Unit PMDoc))
        (abstracts : List (String × String)) (limit : Int),
      (∀ i ∈ ids, ∃ d, docs.lookup i = some (Except.ok d)) →
      (pubmedSearch (.ok ids) (.ok docs) abstracts limit).length = ids.length) := by
  refine ⟨?_, ?_, ?_, ?_⟩
  · intro bio med q limit
    simp only [bioRxivSearch]
    exact List.length_take_le _ _
  · intro entries limit
    simp [arxivSearch, collectParsed_map_ok]
  · intro items limit
    simp [ssSearch, collectParsed_map_ok]
  · intro ids docs abstracts limit h
    rw [pubmedSearch]
    split
    · rename_i hemp
      simp [List.isEmpty_iff.mp hemp]
    · exact pubmedCollect_length h

/-- Witness for C3 (amended) at a concrete input: a PubMed esearch response
carrying two PMIDs, both with parseable summary docs, yields two papers even
though `limit` is 1. -/
theorem only_biorxiv_truncates_locally_witness :
    (pubmedSearch (.ok ["11", "22"])
      (.ok [("11", Except.ok {}), ("22", Except.ok {})]) [] 1).length
      = (["11", "22"] : List String).length :=
  only_biorxiv_truncates_locally.2.2.2 ["11", "22"]
    [("11", Except.ok {}), ("22", Except.ok {})] [] 1
    (by
      intro i hi
      rcases List.mem_cons.mp hi with rfl | hi
      · exact ⟨{}, rfl⟩
      · rcases List.mem_cons.mp hi with rfl | hi
        · exact ⟨{}, rfl⟩
        · cases hi)

/-- C4 counterexample: the biorxiv adapter's `search` can emit a Paper whose
`source` is `"medrxiv"`, while the adapter is registered only under
`"biorxiv"` and `"medrxiv"` is not in the registry at all. -/
theorem adapter_source_name_counterexample :
    (bioRxivSearch (.collection []) (.collection [Except.ok bxW]) "" 5).map Paper.source
      = ["medrxiv"] ∧
    "medrxiv" ∉ registeredSourceNames ∧
    SOURCE_REGISTRY.lookup "biorxiv" = some "BioRxivSource" := by decide

/-- C4 amended: the arxiv, semantic_scholar and pubmed adapters stamp every
produced Paper with exactly their registered names; the biorxiv adapter
stamps each Paper with the server it was fetched from — `"biorxiv"` or
`"medrxiv"` — of which only `"biorxiv"` is a registered source name. -/
theorem adapter_source_fields :
    (∀ e, (arxivParseEntry e).source = "arxiv") ∧
    ("arxiv", "ArXivSource") ∈ SOURCE_REGISTRY ∧
    (∀ d, (ssParsePaper d).source = "semantic_scholar") ∧
    ("semantic_scholar", "SemanticScholarSource") ∈ SOURCE_REGISTRY ∧
    (∀ pmid doc ab, (pubmedParsePaper pmid doc ab).source = "pubmed") ∧
    ("pubmed", "PubMedSource") ∈ SOURCE_REGISTRY ∧
    (∀ d, (bxParsePaper d "biorxiv").source = "biorxiv") ∧
    (∀ d, (bxParsePaper d "medrxiv").source = "medrxiv") ∧
    ("biorxiv", "BioRxivSource") ∈ SOURCE_REGISTRY ∧
    "medrxiv" ∉ registeredSourceNames :=
  ⟨fun _ => rfl, by decide, fun _ => rfl, by decide, fun _ _ _ => rfl, by decide,
   fun _ => rfl, fun _ => rfl, by decide, by decide⟩

/-- Every paper produced by `collectParsed` is the parse of a delivered
item. -/
theorem mem_collectParsed {α : Type} {f : α → Paper} :
    ∀ {items : List (Except Unit α)} {p : Paper}, p ∈ collectParsed f items →
      ∃ a, Except.ok a ∈ items ∧ p = f a := by
  intro items
  induction items with
  | nil => intro p hp; simp [collectParsed] at hp
  | cons x rest ih =>
    intro p hp
    cases x with
    | error e => simp [collectParsed] at hp
    | ok a =>
      rw [collectParsed] at hp
      rcases List.mem_cons.mp hp with rfl | hp
      · exact ⟨a, List.mem_cons_self _ _, rfl⟩
      · obtain ⟨b, hb, rfl⟩ := ih hp
        exact ⟨b, List.mem_cons_of_mem _ hb, rfl⟩

/-- Every paper produced by the PubMed collection loop comes from a PMID of
the id list whose summary doc parsed. -/
theorem mem_pubmedCollect {docs : List (String × Except Unit PMDoc)}
    {abstracts : List (String × String)} :
    ∀ {ids : List String} {p : Paper}, p ∈ pubmedCollect docs abstracts ids →
      ∃ pmid doc, pmid ∈ ids ∧ docs.lookup pmid = some (Except.ok doc) ∧
        p = pubmedParsePaper pmid doc ((abstracts.lookup pmid).getD "") := by
  intro ids
  induction ids with
  | nil => intro p hp; simp [pubmedCollect] at hp
  | cons pmid rest ih =>
    intro p hp
    rw [pubmedCollect] at hp
    cases hld : docs.lookup pmid with
    | none =>
      rw [hld] at hp
      obtain ⟨pm, doc, hm, hlk, rfl⟩ := ih hp
      exact ⟨pm, doc, List.mem_cons_of_mem _ hm, hlk, rfl⟩
    | some ex =>
      cases ex with
      | error e => rw [hld] at hp; simp at hp
      | ok doc =>
        rw [hld] at hp
        rcases List.mem_cons.mp hp with rfl | hp
        · exact ⟨pmid, doc, List.mem_cons_self _ _, hld, rfl⟩
        · obtain ⟨pm, doc2, hm, hlk, rfl⟩ := ih hp
          exact ⟨pm, doc2, List.mem_cons_of_mem _ hm, hlk, rfl⟩

/-- Every paper produced by the bioRxiv collection loop is either already
accumulated or the parse of a successfully delivered item, stamped with the
server it came from. -/
theorem mem_bxCollect {server queryLower : String} {limit : Nat} :
    ∀ {items : List (Except Unit BxItem)} {acc : List Paper} {p : Paper},
      p ∈ bxCollect server queryLower limit items acc →
      p ∈ acc ∨ ∃ item, Except.ok item ∈ items ∧ p = bxParsePaper item server := by
  intro items
  induction items with
  | nil => intro acc p hp; exact Or.inl (by simpa [bxCollect] using hp)
  | cons x rest ih =>
    intro acc p hp
    cases x with
    | error e => exact Or.inl (by simpa [bxCollect] using hp)
    | ok item =>
      simp only [bxCollect] at hp
      split at hp
      · rcases ih hp with h | ⟨it, hit, rfl⟩
        · exact Or.inl h
        · exact Or.inr ⟨it, List.mem_cons_of_mem _ hit, rfl⟩
      · split at hp
        · rcases List.mem_append.mp hp with h | h
          · exact Or.inl h
          · exact Or.inr ⟨item, List.mem_cons_self _ _, by simpa using h⟩
        · rcases ih hp with h | ⟨it, hit, rfl⟩
          · rcases List.mem_append.mp h with h2 | h2
            · exact Or.inl h2
            · exact Or.inr ⟨item, List.mem_cons_self _ _, by simpa using h2⟩
          · exact Or.inr ⟨it, List.mem_cons_of_mem _ hit, rfl⟩

/-- Every paper returned by `_fetch_from_server` parses a delivered item of
its server's response. -/
theorem mem_bxFetchFromServer {resp : BxResp} {server queryLower : String}
    {limit : Nat} {p : Paper}
    (hp : p ∈ bxFetchFromServer resp server queryLower limit) :
    ∃ item, Except.ok item ∈ resp.items ∧ p = bxParsePaper item server := by
  cases resp with
  | fail => simp [bxFetchFromServer] at hp
  | collection items =>
    rcases mem_bxCollect hp with h | ⟨it, hit, rfl⟩
    · simp at h
    · exact ⟨it, hit, rfl⟩

/-- C6: every adapter's `search` swallows every transport and parse failure:
a failed request (or non-OK status, or unparseable body) yields `[]`, and
whatever is returned consists only of items that parsed successfully — for
biorxiv, of items delivered by one of its two server requests, stamped with
that server's name.  Each embedding is a total function: the Python
`try`/`except` never lets an exception reach the caller. -/
theorem search_never_throws_returns_parsed_subset :
    (∀ limit, arxivSearch .fail limit = []) ∧
    (∀ items limit p, p ∈ arxivSearch (.entries items) limit →
      ∃ e, Except.ok e ∈ items ∧ p = arxivParseEntry e) ∧
    (∀ limit, ssSearch .fail limit = []) ∧
    (∀ code items limit p, p ∈ ssSearch (.status code items) limit →
      ∃ d, Except.ok d ∈ items ∧ p = ssParsePaper d) ∧
    (∀ esummary abstracts limit,
      pubmedSearch (.error ()) esummary abstracts limit = []) ∧
    (∀ ids abstracts limit,
      pubmedSearch (.ok ids) (.error ()) abstracts limit = []) ∧
    (∀ ids docs abstracts limit p,
      p ∈ pubmedSearch (.ok ids) (.ok docs) abstracts limit →
      ∃ pmid doc, pmid ∈ ids ∧ docs.lookup pmid = some (Except.ok doc) ∧
        p = pubmedParsePaper pmid doc ((abstracts.lookup pmid).getD "")) ∧
    (∀ query limit, bioRxivSearch .fail .fail query limit = []) ∧
    (∀ bioResp medResp query limit p,
      p ∈ bioRxivSearch bioResp medResp query limit →
      ∃ item, (Except.ok item ∈ bioResp.items ∧ p = bxParsePaper item "biorxiv") ∨
        (Except.ok item ∈ medResp.items ∧ p = bxParsePaper item "medrxiv")) := by
  refine ⟨fun _ => rfl, ?_, fun _ => rfl, ?_, fun _ _ _ => rfl, ?_, ?_, ?_, ?_⟩
  · intro items limit p hp
    exact mem_collectParsed hp
  · intro code items limit p hp
    rw [ssSearch] at hp
    split at hp
    · exact mem_collectParsed hp
    · simp at hp
  · intro ids abstracts limit
    rw [pubmedSearch]
    split
    · rfl
    · rfl
  · intro ids docs abstracts limit p hp
    rw [pubmedSearch] at hp
    split at hp
    · simp at hp
    · exact mem_pubmedCollect hp
  · intro query limit
    simp only [bioRxivSearch, bxFetchFromServer]
    split <;> simp
  · intro bioResp medResp query limit p hp
    simp only [bioRxivSearch] at hp
    have hp2 := List.mem_of_mem_take hp
    split at hp2 <;> split at hp2
    · rcases List.mem_append.mp hp2 with h | h
      · obtain ⟨it, hit, rfl⟩ := mem_bxFetchFromServer h
        exact ⟨it, Or.inl ⟨hit, rfl⟩⟩
      · obtain ⟨it, hit, rfl⟩ := mem_bxFetchFromServer h
        exact ⟨it, Or.inr ⟨hit, rfl⟩⟩
    · obtain ⟨it, hit, rfl⟩ := mem_bxFetchFromServer hp2
      exact ⟨it, Or.inl ⟨hit, rfl⟩⟩
    · rcases List.mem_append.mp hp2 with h | h
      · obtain ⟨it, hit, rfl⟩ := mem_bxFetchFromServer h
        exact ⟨it, Or.inl ⟨hit, rfl⟩⟩
      · obtain ⟨it, hit, rfl⟩ := mem_bxFetchFromServer h
        exact ⟨it, Or.inr ⟨hit, rfl⟩⟩
    · obtain ⟨it, hit, rfl⟩ := mem_bxFetchFromServer hp2
      exact ⟨it, Or.inl ⟨hit, rfl⟩⟩

/-- Witness for C6 at a concrete input: from a response carrying one good
entry and one entry whose parse raises, the arXiv adapter's output paper is
the parse of the good entry. -/
theorem search_never_throws_witness :
    ∃ e, Except.ok e ∈ [Except.ok eW1, Except.error ()] ∧
      arxivParseEntry eW1 = arxivParseEntry e :=
  search_never_throws_returns_parsed_subset.2.1
    [Except.ok eW1, Except.error ()] 5 (arxivParseEntry eW1) (List.Mem.head _)

/-- The reference-appending loop preserves the level invariant. -/
theorem addRefs_inv (seen0 : List (String × String)) :
    ∀ (rs : List Paper) (st : List Paper × List (String × String)),
      LevelInv seen0 st → LevelInv seen0 (addRefs rs st) := by
  intro rs
  induction rs with
  | nil => intro st h; simpa [addRefs] using h
  | cons r rs ih =>
    intro st h
    rw [addRefs]
    split
    · exact ih st h
    · rename_i hnot
      obtain ⟨h1, h2, h3⟩ := h
      have hr_not_map : paperKey r ∉ st.1.map paperKey := by
        intro hmem
        exact hnot (h1 ▸ List.mem_append_right _ hmem)
      have hr_not_seen0 : paperKey r ∉ seen0 := by
        intro hmem
        exact hnot (h1 ▸ List.mem_append_left _ hmem)
      refine ih _ ⟨?_, ?_, ?_⟩
      · simp only [List.map_append, List.map_cons, List.map_nil]
        rw [h1, List.append_assoc]
      · simp only [List.map_append, List.map_cons, List.map_nil]
        rw [List.nodup_append]
        exact ⟨h2, List.nodup_singleton _, by
          intro k hk
          simp only [List.mem_singleton]
          intro hke
          exact hr_not_map (hke ▸ hk)⟩
      · intro k hk
        simp only [List.map_append, List.map_cons, List.map_nil,
          List.mem_append, List.mem_singleton] at hk
        rcases hk with hk | rfl
        · exact h3 k hk
        · exact hr_not_seen0

/-- One traversal level preserves the level invariant. -/
theorem levelStep_inv (oracle : Paper → Option (List Paper)) (mpp : Nat)
    (seen0 : List (String × String)) :
    ∀ (frontier : List Paper) (st : List Paper × List (String × String)),
      LevelInv seen0 st → LevelInv seen0 (levelStep oracle mpp frontier st) := by
  intro frontier
  induction frontier with
  | nil => intro st h; simpa [levelStep] using h
  | cons p rest ih =>
    intro st h
    rw [levelStep]
    split
    · exact ih st h
    · exact ih _ (addRefs_inv seen0 _ st h)

/-- The level loop keeps the accumulated keys duplicate-free as long as
every accumulated key is recorded in the seen set. -/
theorem rabbitLoop_nodup (oracle : Paper → Option (List Paper)) (mpp : Nat) :
    ∀ (fuel : Nat) (frontier all : List Paper) (seen : List (String × String)),
      (all.map paperKey).Nodup →
      (∀ p ∈ all, paperKey p ∈ seen) →
      ((rabbitLoop oracle mpp fuel frontier all seen).map paperKey).Nodup := by
  intro fuel
  induction fuel with
  | zero => intro frontier all seen h1 _; simpa [rabbitLoop] using h1
  | succ n ih =>
    intro frontier all seen h1 h2
    rw [rabbitLoop]
    have hinv : LevelInv seen (levelStep oracle mpp frontier ([], seen)) :=
      levelStep_inv oracle mpp seen frontier ([], seen) (by simp [LevelInv])
    split
    · exact h1
    · apply ih
      · rw [List.map_append, List.nodup_append]
        refine ⟨h1, hinv.2.1, ?_⟩
        intro k hk1 hk2
        obtain ⟨p, hp, rfl⟩ := List.mem_map.mp hk1
        exact hinv.2.2 _ hk2 (h2 p hp)
      · intro p hp
        rw [hinv.1]
        rcases List.mem_append.mp hp with h | h
        · exact List.mem_append_left _ (h2 p h)
        · exact List.mem_append_right _ (List.mem_map_of_mem _ h)

/-- C8 counterexample: a duplicated input paper passes through the traversal
engine untouched, so the returned list repeats its `(id, source)` key — the
seen-set dedup only guards papers *discovered* during expansion. -/
theorem traversal_unique_keys_counterexample :
    ¬ (((fetch_references_recursive (fun _ => none) [pDupW, pDupW] 1 5).map
        paperKey).Nodup) := by decide

/-- C8 amended: whenever the input papers have pairwise-distinct
`(id, source)` keys, the traversal engine's output has each key at most
once — every discovered paper is deduplicated against the entire
accumulated seen-set, which is seeded with the input keys (input
duplicates, however, are passed through unchanged). -/
theorem traversal_unique_keys (oracle : Paper → Option (List Paper))
    (papers : List Paper) (depth : Int) (mpp : Nat)
    (h : (papers.map paperKey).Nodup) :
    ((fetch_references_recursive oracle papers depth mpp).map paperKey).Nodup := by
  rw [fetch_references_recursive]
  split
  · exact h
  · exact rabbitLoop_nodup oracle mpp depth.toNat papers papers (papers.map paperKey) h
      (fun p hp => List.mem_map_of_mem _ hp)

/-- Witness for C8 (amended) at a concrete input: expanding `[pW8]` two
levels through an oracle that keeps returning the same reference yields a
key-duplicate-free list. -/
theorem traversal_unique_keys_witness :
    ((fetch_references_recursive oracleW [pW8] 2 5).map paperKey).Nodup :=
  traversal_unique_keys oracleW [pW8] 2 5 (by decide)

/-- C9 counterexample: `_extract_keywords` itself imposes no cap — a text
with 21 distinct qualifying words yields 21 keywords (the `[:20]` cut is
applied later, by each adapter, when it builds the Paper). -/
theorem extract_keywords_cap_counterexample :
    20 < (extract_keywords ("alpha bravo charlie delta echos foxtrot golfy hotel india " ++
      "juliett kilos lima mike november oscar papas quebec romeo sierra tango uniform")).length := by
  decide

/-- C9 amended: the shared helper returns lowercased tokens stripped to
their alphanumeric characters, longer than 3 characters, outside the fixed
stopword list, and deduplicated — but uncapped; the cap at 20 keywords is
applied by each adapter's parse routine when the Paper is built. -/
theorem extract_keywords_properties :
    (∀ text k, k ∈ extract_keywords text →
      pyLower k = k ∧ (∀ ch ∈ k.data, ch.isAlphanum) ∧ 3 < k.length ∧
      k ∉ keywordStopwords) ∧
    (∀ text, (extract_keywords text).Nodup) ∧
    (∀ e, (arxivParseEntry e).keywords.length ≤ 20) ∧
    (∀ d, (ssParsePaper d).keywords.length ≤ 20) ∧
    (∀ pmid doc ab, (pubmedParsePaper pmid doc ab).keywords.length ≤ 20) ∧
    (∀ d server, (bxParsePaper d server).keywords.length ≤ 20) := by
  refine ⟨?_, fun text => pyDedup_nodup _, ?_, ?_, ?_, ?_⟩
  · intro text k hk
    rw [extract_keywords] at hk
    have hk2 := mem_pyDedup.mp hk
    have hk3 := List.mem_filter.mp hk2
    have hcond := hk3.2
    simp only [Bool.and_eq_true, decide_eq_true_eq] at hcond
    obtain ⟨w, hw, rfl⟩ := List.mem_map.mp hk3.1
    refine ⟨?_, ?_, hcond.1, hcond.2⟩
    · have hlow : ∀ ch ∈ (cleanWord w).data, ch.toLower = ch := by
        intro ch hch
        have hchw : ch ∈ w.data := (List.mem_filter.mp hch).1
        have hchtext : ch ∈ (pyLower text).data := mem_of_mem_pyWords hw hchw
        have : ch ∈ text.data.map Char.toLower := hchtext
        obtain ⟨c, _, rfl⟩ := List.mem_map.mp this
        exact char_toLower_toLower c
      show String.mk ((cleanWord w).data.map Char.toLower) = cleanWord w
      rw [List.map_congr_left hlow]
      simp
    · intro ch hch
      exact (List.mem_filter.mp hch).2
  · intro e
    simp only [arxivParseEntry]
    exact List.length_take_le _ _
  · intro d
    simp only [ssParsePaper]
    exact List.length_take_le _ _
  · intro pmid doc ab
    simp only [pubmedParsePaper]
    exact List.length_take_le _ _
  · intro d server
    simp only [bxParsePaper]
    exact List.length_take_le _ _

/-- Witness for C9 (amended) at a concrete input: the token `"quantum"` is
extracted from `"Quantum Entanglement"` and has every claimed property. -/
theorem extract_keywords_properties_witness :
    pyLower "quantum" = "quantum" ∧
    (∀ ch ∈ ("quantum" : String).data, ch.isAlphanum) ∧
    3 < ("quantum" : String).length ∧
    ("quantum" : String) ∉ keywordStopwords :=
  extract_keywords_properties.1 "Quantum Entanglement" "quantum" (by decide)

end SynapseScanner
